import Mathlib

/-!
Shallow embedding of the caffe2 plan-execution engine
(src/caffe2/core/workspace.cc) and proofs about its execution-step
machinery: continuation tests, leaf network loops, sequential substep
composition, reporter setup, and the network registry operations
CreateNet and RunNetOnce.

Modelling conventions:
* Networks and blobs are external collaborators.  The dynamic behaviour
  of a network run and of the blob store is abstracted into an
  environment `Env`: `runNet name t` is the boolean outcome of the
  network run performed when `t` network runs have already happened
  (a global run counter, the `tick`), and `blobAt name t` is the content
  of blob `name` once `t` runs have happened.  This captures the
  deterministic single-threaded schedules the claims are about.
* Machine integers of the proto (`num_iter`) are modelled as `Nat`.
* glog CHECK / CHECK_EQ / CHECK_NOTNULL failures, CAFFE_ENFORCE throws
  and null-pointer dereferences are all modelled as the `Res.fatal`
  outcome: they abort the surrounding computation instead of returning
  `false` to the caller.
* Iteration loops are driven by a fuel parameter so that every
  definition is executable; `Res.fuelOut` marks fuel exhaustion and is
  never the subject of a claim.
-/

namespace Caffe2

/-- A constructed network instance, as far as the step executor can
observe it: its declared external output names. -/
structure NetInst where
  external_output : List String
deriving DecidableEq

/-- The part of a `TensorCPU` the criteria check reads: element count,
whether the element type is `bool`, and the first element (`data[0]`,
already compared against zero, i.e. its truthiness). -/
structure TensorVal where
  size : Nat
  isBool : Bool
  firstBool : Bool
deriving DecidableEq

/-- The workspace net registry: `net_map_`.  An entry whose value is
`none` is a registered null `unique_ptr` (which the source can create
through `net_map_[name]` on an absent key). -/
abbrev NetMap := List (String × Option NetInst)

/-- External behaviour of network runs and of the blob store, indexed by
the global run counter (the tick). -/
structure Env where
  runNet : String → Nat → Bool
  blobAt : String → Nat → Option TensorVal

/-- The `ExecutionStep` proto message, restricted to the fields
`workspace.cc` reads.  `Option` models `has_*` / optional fields. -/
structure ExecutionStep where
  name : String
  substep : List ExecutionStep
  network : List String
  concurrent_substeps : Bool
  num_iter : Option Nat
  criteria_network : Option String
  report_net : Option String
  report_interval : Option Nat

/-- Observable events of one step execution: a network run (leaf or
criteria network) with its tick and outcome, and the start of a
reporter thread on a handle that is or is not null. -/
inductive Event where
  | netRun (name : String) (tick : Nat) (ok : Bool)
  | reporterStart (name : String) (nonNull : Bool)
deriving DecidableEq

/-- Outcome of a step-executor computation.  `ok`/`fail` are the `true`
and `false` returns of the source; `fatal` is a CHECK / CAFFE_ENFORCE
abort or a null dereference; `fuelOut` is exhaustion of the modelling
fuel. -/
inductive Res where
  | ok
  | fail
  | fatal (msg : String)
  | fuelOut
deriving DecidableEq

/-- Outcome of one continuation-test evaluation. -/
inductive CRes where
  | val (b : Bool)
  | fatal (msg : String)
deriving DecidableEq

/-- The continuation policy `getContinuationTest` returns: either a
fixed iteration bound, or a criteria network with its single designated
output blob. -/
inductive ContTest where
  | count (n : Nat)
  | criteria (netName : String) (output : String)
deriving DecidableEq

/-- Workspace state: the global run counter and the net registry. -/
structure Workspace where
  tick : Nat
  netMap : NetMap
deriving DecidableEq

/-- Registry lookup (`net_map_.count` / `net_map_[...]` read). -/
def mapLookup : NetMap → String → Option (Option NetInst)
  | [], _ => none
  | p :: rest, n => if p.1 = n then some p.2 else mapLookup rest n

/-- Registry erase (`net_map_.erase`). -/
def mapErase (m : NetMap) (n : String) : NetMap :=
  m.filter (fun p => p.1 != n)

/-- Registry insert-or-overwrite (`net_map_[name] = v`). -/
def mapInsert (m : NetMap) (n : String) (v : Option NetInst) : NetMap :=
  (n, v) :: mapErase m n

/-- Reporter setup, lines 242-251 of workspace.cc: CAFFE_ENFORCE that a
report interval accompanies a report net, then look the report net up.
When the name is absent the source logs an error and then evaluates
`net_map_[step.report_net()]`, which default-inserts a null entry; the
reporter is started on that (null) handle. -/
def reporterSetup (step : ExecutionStep) (s : Workspace) :
    Except String (Workspace × List Event) :=
  match step.report_net with
  | none => .ok (s, [])
  | some rn =>
    match step.report_interval with
    | none => .error "A report_interval must be provided if report_net is set."
    | some _ =>
      let m1 := if mapLookup s.netMap rn = none
                then mapInsert s.netMap rn none
                else s.netMap
      let nonNull := match mapLookup m1 rn with
        | some (some _) => true
        | _ => false
      .ok ({ s with netMap := m1 }, [Event.reporterStart rn nonNull])

/-- Translation of `getContinuationTest`, lines 17-43 of workspace.cc:
CHECK that a criteria network excludes a fixed count; without a criteria
network the policy is a fixed iteration bound (default 1); otherwise the
criteria network is resolved (CHECK_NOTNULL) and must declare exactly
one external output (CHECK_EQ). -/
def getContinuationTest (s : Workspace) (step : ExecutionStep) :
    Except String ContTest :=
  if step.criteria_network.isSome && step.num_iter.isSome then
    .error "Must not specify num_iter if criteria_network is set"
  else
    match step.criteria_network with
    | none => .ok (.count (step.num_iter.getD 1))
    | some cn =>
      match mapLookup s.netMap cn with
      | some (some inst) =>
        if inst.external_output.length = 1 then
          .ok (.criteria cn (inst.external_output.headD ""))
        else .error "criteria network must have exactly one external output"
      | _ => .error "criteria network is null"

/-- One evaluation of the continuation policy.  A fixed count compares
the iteration index; a criteria test runs the criteria network (its
boolean outcome is discarded by the source), then reads the designated
output blob, CHECKs it holds exactly one boolean element, and returns
the truthiness of that element. -/
def evalNetCont (env : Env) (ct : ContTest) (i : Nat) (s : Workspace) :
    Workspace × List Event × CRes :=
  match ct with
  | .count n => (s, [], .val (decide (i < n)))
  | .criteria cn out =>
    let r := env.runNet cn s.tick
    let s1 := { s with tick := s.tick + 1 }
    let ev := [Event.netRun cn s.tick r]
    match env.blobAt out s1.tick with
    | none => (s1, ev, .fatal "GetBlob returned null for the criteria output")
    | some t =>
      if t.size ≠ 1 then (s1, ev, .fatal "CHECK_EQ blob.size 1")
      else if ¬ t.isBool then (s1, ev, .fatal "CHECK blob.IsType bool")
      else (s1, ev, .val t.firstBool)

/-- The combined predicate of line 254-256:
`externalShouldContinue(iter) && netShouldContinue(iter)`, with the
C++ short-circuit: a false external predicate skips the net test. -/
def evalShouldContinue (env : Env) (ext : Nat → Bool) (ct : ContTest)
    (i : Nat) (s : Workspace) : Workspace × List Event × CRes :=
  if ext i then evalNetCont env ct i s else (s, [], .val false)

/-- Up-front resolution of a leaf step network list, lines 298-307:
every name must be present in the registry, otherwise the whole step
fails before anything runs.  The stored value is the registered handle,
null included. -/
def collectNetworks (m : NetMap) : List String →
    Option (List (String × Option NetInst))
  | [] => some []
  | n :: rest =>
    match mapLookup m n with
    | none => none
    | some inst =>
      match collectNetworks m rest with
      | none => none
      | some l => some ((n, inst) :: l)

/-- One iteration of the leaf loop body, lines 310-314: run every
resolved network in declared order, stopping at the first failed run.
Running a null handle dereferences null. -/
def runNetsRow (env : Env) : List (String × Option NetInst) → Workspace →
    Workspace × List Event × Res
  | [], s => (s, [], .ok)
  | (n, inst) :: rest, s =>
    match inst with
    | none => (s, [], .fatal "Run called on a null network")
    | some _ =>
      let r := env.runNet n s.tick
      let s1 := { s with tick := s.tick + 1 }
      if r then
        let (s2, evs, res) := runNetsRow env rest s1
        (s2, Event.netRun n s.tick true :: evs, res)
      else (s1, [Event.netRun n s.tick false], .fail)

/-- Work items of the step executor: a whole step, the composite
iteration loop, the sequential worker over the substeps, and the leaf
iteration loop over the resolved networks. -/
inductive Mode where
  | stepM (step : ExecutionStep)
  | loopM (children : List ExecutionStep) (ct : ContTest) (i : Nat)
  | workM (children : List ExecutionStep)
  | leafM (nets : List (String × Option NetInst)) (ct : ContTest) (i : Nat)

/-- The step executor of `Workspace::ExecuteStepRecursive`, lines
232-318, as a fuel-indexed machine over work items.

`stepM`: shape validation (substeps and networks are mutually
exclusive), reporter setup, continuation-test construction, then either
the composite loop or leaf resolution followed by the leaf loop.

`loopM`: one composite iteration per continuation-test success; a child
failure stops further iterations.  The concurrent branch (threads
racing over the shared substep counter) is modelled under the
deterministic schedule in which the first spawned worker claims every
substep index before the other workers observe the counter, which makes
both branches of line 280 the same sequential worker.

`workM`: the sequential worker, claiming substeps in increasing index
order and stopping at the first failure (`got_failure`).

`leafM`: the leaf loop of lines 308-315. -/
def machine (env : Env) (ext : Nat → Bool) :
    Nat → Mode → Workspace → Workspace × List Event × Res
  | 0, _, s => (s, [], .fuelOut)
  | fuel + 1, mode, s =>
    match mode with
    | .stepM step =>
      if ¬ (step.substep.length = 0 ∨ step.network.length = 0) then
        (s, [], .fail)
      else
        match reporterSetup step s with
        | .error msg => (s, [], .fatal msg)
        | .ok (s1, e1) =>
          match getContinuationTest s1 step with
          | .error msg => (s1, e1, .fatal msg)
          | .ok ct =>
            if step.substep.length ≠ 0 then
              let (s2, e2, r) := machine env ext fuel (.loopM step.substep ct 0) s1
              (s2, e1 ++ e2, r)
            else
              match collectNetworks s1.netMap step.network with
              | none => (s1, e1, .fail)
              | some nets =>
                let (s2, e2, r) := machine env ext fuel (.leafM nets ct 0) s1
                (s2, e1 ++ e2, r)
    | .loopM children ct i =>
      match evalShouldContinue env ext ct i s with
      | (s1, e1, .fatal msg) => (s1, e1, .fatal msg)
      | (s1, e1, .val false) => (s1, e1, .ok)
      | (s1, e1, .val true) =>
        match machine env ext fuel (.workM children) s1 with
        | (s2, e2, .ok) =>
          let (s3, e3, r3) := machine env ext fuel (.loopM children ct (i + 1)) s2
          (s3, e1 ++ e2 ++ e3, r3)
        | (s2, e2, r) => (s2, e1 ++ e2, r)
    | .workM children =>
      match children with
      | [] => (s, [], .ok)
      | c :: rest =>
        match machine env ext fuel (.stepM c) s with
        | (s1, e1, .ok) =>
          let (s2, e2, r2) := machine env ext fuel (.workM rest) s1
          (s2, e1 ++ e2, r2)
        | (s1, e1, r1) => (s1, e1, r1)
    | .leafM nets ct i =>
      match evalShouldContinue env ext ct i s with
      | (s1, e1, .fatal msg) => (s1, e1, .fatal msg)
      | (s1, e1, .val false) => (s1, e1, .ok)
      | (s1, e1, .val true) =>
        match runNetsRow env nets s1 with
        | (s2, e2, .ok) =>
          let (s3, e3, r3) := machine env ext fuel (.leafM nets ct (i + 1)) s2
          (s3, e1 ++ e2 ++ e3, r3)
        | (s2, e2, r) => (s2, e1 ++ e2, r)

/-- Entry point: `Workspace::ExecuteStepRecursive(step, ext)`. -/
def ExecuteStepRecursive (env : Env) (ext : Nat → Bool) (fuel : Nat)
    (step : ExecutionStep) (s : Workspace) : Workspace × List Event × Res :=
  machine env ext fuel (.stepM step) s

/-- Default element handed to `List.getD` over resolved network lists. -/
def dfltNet : String × Option NetInst := ("", none)

/-- Expected trace of one all-successful leaf iteration over the named
networks, starting at tick `t0`. -/
def runRowTrace : List String → Nat → List Event
  | [], _ => []
  | n :: rest, t0 => Event.netRun n t0 true :: runRowTrace rest (t0 + 1)

/-- Expected trace of `k` all-successful leaf iterations. -/
def leafIters : Nat → List String → Nat → List Event
  | 0, _, _ => []
  | k + 1, ns, t0 => runRowTrace ns t0 ++ leafIters k ns (t0 + ns.length)

/-- The `NetDef` proto message, restricted to what `CreateNet` and
`RunNetOnce` read: whether a name is present. -/
structure NetDef where
  name : Option String
deriving DecidableEq

/-- External collaborators of the registry operations: the free
`caffe2::CreateNet` constructor (null on failure), post-construction
verification, and the run of a constructed instance. -/
structure RunEnv where
  construct : NetDef → Option NetInst
  verifyNet : NetInst → Bool
  runInst : NetInst → Bool

/-- Observable registry events of `Workspace::CreateNet`. -/
inductive RegEvent where
  | eraseEv (n : String)
  | constructEv (n : String) (ok : Bool)
  | verifyEv (n : String) (ok : Bool)
deriving DecidableEq

/-- Return value of `Workspace::CreateNet`: the returned handle is null
on failure; a missing name is a CHECK abort. -/
inductive CreateOut where
  | fatalOut (msg : String)
  | nullOut
  | okOut (inst : NetInst)
deriving DecidableEq

/-- Translation of `Workspace::CreateNet`, lines 89-114: CHECK the
definition has a name; a colliding entry is erased before the new
instance is constructed; the constructed pointer is registered, then
removed again (returning null) if it is null or fails verification. -/
def CreateNet (env : RunEnv) (m : NetMap) (nd : NetDef) :
    NetMap × List RegEvent × CreateOut :=
  match nd.name with
  | none => (m, [], .fatalOut "Net definition should have a name.")
  | some n =>
    let m1 := if mapLookup m n ≠ none then mapErase m n else m
    let e1 : List RegEvent :=
      if mapLookup m n ≠ none then [RegEvent.eraseEv n] else []
    let built := env.construct nd
    let m2 := mapInsert m1 n built
    let e2 := e1 ++ [RegEvent.constructEv n built.isSome]
    match built with
    | none => (mapErase m2 n, e2, .nullOut)
    | some inst =>
      if env.verifyNet inst then
        (m2, e2 ++ [RegEvent.verifyEv n true], .okOut inst)
      else
        (mapErase m2 n, e2 ++ [RegEvent.verifyEv n false], .nullOut)

/-- Translation of `Workspace::RunNetOnce`, lines 150-161: construct a
transient instance, verify it and run it once.  The source never
null-checks the constructed pointer, so a failed construction reaches
`net->Verify()` on null.  The registry is never touched. -/
def RunNetOnce (env : RunEnv) (m : NetMap) (nd : NetDef) : NetMap × Res :=
  match env.construct nd with
  | none => (m, .fatal "Verify called on a null network instance")
  | some net =>
    if ¬ env.verifyNet net then (m, .fail)
    else if ¬ env.runInst net then (m, .fail)
    else (m, .ok)

/-- Registry invariant: every registered entry is a non-null instance
that passes verification. -/
def RegOkB (verify : NetInst → Bool) (m : NetMap) : Bool :=
  m.all fun p => match p.2 with
    | some i => verify i
    | none => false

/-! Concrete objects used by witnesses, counterexamples and the
scenario parts of the claims. -/

/-- A network instance with no external outputs. -/
def netI : NetInst := ⟨[]⟩

/-- A criteria network instance with the single output blob `out`. -/
def netCrit : NetInst := ⟨["out"]⟩

/-- Environment in which every network run succeeds. -/
def envAllOk : Env := ⟨fun _ _ => true, fun _ _ => none⟩

/-- Environment in which the run performed at tick 3 fails. -/
def envFail3 : Env := ⟨fun _ t => t != 3, fun _ _ => none⟩

/-- Environment in which every run of the network `bfail` fails. -/
def envBfail : Env := ⟨fun n _ => n != "bfail", fun _ _ => none⟩

/-- Environment for the criteria scenario: every run succeeds and the
criteria output blob holds the boolean scalar `tick < 5`, so the three
successive criteria reads yield true, true, false. -/
def envCrit : Env :=
  ⟨fun _ _ => true,
   fun n t => if n = "out" then some ⟨1, true, decide (t < 5)⟩ else none⟩

/-- Always-true external continuation predicate. -/
def extAlways : Nat → Bool := fun _ => true

/-- Always-false external continuation predicate. -/
def extNever : Nat → Bool := fun _ => false

/-- Registry holding the leaf networks `a` and `b`. -/
def regAB : NetMap := [("a", some netI), ("b", some netI)]

/-- Workspace over `regAB` at tick 0. -/
def ws0 : Workspace := ⟨0, regAB⟩

/-- Fixed-count leaf step over networks `a` and `b`, two iterations. -/
def step1 : ExecutionStep := ⟨"s1", [], ["a", "b"], false, some 2, none, none, none⟩

/-- Criteria-driven leaf step over the network `body`. -/
def stepCrit : ExecutionStep := ⟨"s2", [], ["body"], false, none, some "crit", none, none⟩

/-- Registry holding the criteria network and the body network. -/
def regCrit : NetMap := [("crit", some netCrit), ("body", some netI)]

/-- Workspace over `regCrit` at tick 0. -/
def wsCrit : Workspace := ⟨0, regCrit⟩

/-- A sequential leaf substep running network `a`. -/
def stepA : ExecutionStep := ⟨"sa", [], ["a"], false, none, none, none, none⟩

/-- A leaf substep running the always-failing network `bfail`. -/
def stepBfail : ExecutionStep := ⟨"sb", [], ["bfail"], false, none, none, none, none⟩

/-- A leaf substep running network `c`, placed after the failing one. -/
def stepC : ExecutionStep := ⟨"sc", [], ["c"], false, none, none, none, none⟩

/-- Sequential composite step with three substeps; the second fails. -/
def stepSeq : ExecutionStep := ⟨"s4", [stepA, stepBfail, stepC], [], false, none, none, none, none⟩

/-- Registry for the sequential scenario. -/
def regABC : NetMap := [("a", some netI), ("bfail", some netI), ("c", some netI)]

/-- Workspace over `regABC` at tick 0. -/
def wsABC : Workspace := ⟨0, regABC⟩

/-- A step declaring both a substep and a network. -/
def stepBoth : ExecutionStep := ⟨"s3", [stepA], ["a"], false, none, none, none, none⟩

/-- Leaf step referencing a network absent from the registry. -/
def stepGhost : ExecutionStep := ⟨"s5", [], ["ghost"], false, none, none, none, none⟩

/-- Workspace with an empty registry. -/
def wsEmpty : Workspace := ⟨0, []⟩

/-- Step declaring both a fixed iteration count and a criteria
network. -/
def stepBothIter : ExecutionStep := ⟨"s6", [], ["a"], false, some 5, some "crit", none, none⟩

/-- Leaf step declaring a report net that is absent from the
registry. -/
def stepReport : ExecutionStep := ⟨"s9", [], ["a"], false, none, none, some "r", some 1⟩

/-- A net definition named `x`. -/
def ndX : NetDef := ⟨some "x"⟩

/-- Registry operation environment whose constructor always fails. -/
def renvNull : RunEnv := ⟨fun _ => none, fun _ => true, fun _ => true⟩

/-- Registry operation environment whose constructor and verifier
always succeed. -/
def renvOk : RunEnv := ⟨fun _ => some netI, fun _ => true, fun _ => true⟩

/-- Registry already holding an entry named `x`. -/
def mapX : NetMap := [("x", some netI)]

/-! ## Unfolding equations of the machine -/

theorem machine_zero (env : Env) (ext : Nat → Bool) (mode : Mode) (s : Workspace) :
    machine env ext 0 mode s = (s, [], Res.fuelOut) := rfl

theorem machine_succ_stepM (env : Env) (ext : Nat → Bool) (F : Nat)
    (step : ExecutionStep) (s : Workspace) :
    machine env ext (F + 1) (Mode.stepM step) s =
      (if ¬ (step.substep.length = 0 ∨ step.network.length = 0) then
        (s, [], .fail)
      else
        match reporterSetup step s with
        | .error msg => (s, [], .fatal msg)
        | .ok (s1, e1) =>
          match getContinuationTest s1 step with
          | .error msg => (s1, e1, .fatal msg)
          | .ok ct =>
            if step.substep.length ≠ 0 then
              let (s2, e2, r) := machine env ext F (.loopM step.substep ct 0) s1
              (s2, e1 ++ e2, r)
            else
              match collectNetworks s1.netMap step.network with
              | none => (s1, e1, .fail)
              | some nets =>
                let (s2, e2, r) := machine env ext F (.leafM nets ct 0) s1
                (s2, e1 ++ e2, r)) := rfl

theorem machine_succ_loopM (env : Env) (ext : Nat → Bool) (F : Nat)
    (children : List ExecutionStep) (ct : ContTest) (i : Nat) (s : Workspace) :
    machine env ext (F + 1) (Mode.loopM children ct i) s =
      (match evalShouldContinue env ext ct i s with
      | (s1, e1, .fatal msg) => (s1, e1, .fatal msg)
      | (s1, e1, .val false) => (s1, e1, .ok)
      | (s1, e1, .val true) =>
        match machine env ext F (.workM children) s1 with
        | (s2, e2, .ok) =>
          let (s3, e3, r3) := machine env ext F (.loopM children ct (i + 1)) s2
          (s3, e1 ++ e2 ++ e3, r3)
        | (s2, e2, r) => (s2, e1 ++ e2, r)) := rfl

theorem machine_succ_workM (env : Env) (ext : Nat → Bool) (F : Nat)
    (children : List ExecutionStep) (s : Workspace) :
    machine env ext (F + 1) (Mode.workM children) s =
      (match children with
      | [] => (s, [], .ok)
      | c :: rest =>
        match machine env ext F (.stepM c) s with
        | (s1, e1, .ok) =>
          let (s2, e2, r2) := machine env ext F (.workM rest) s1
          (s2, e1 ++ e2, r2)
        | (s1, e1, r1) => (s1, e1, r1)) := rfl

theorem machine_succ_leafM (env : Env) (ext : Nat → Bool) (F : Nat)
    (nets : List (String × Option NetInst)) (ct : ContTest) (i : Nat) (s : Workspace) :
    machine env ext (F + 1) (Mode.leafM nets ct i) s =
      (match evalShouldContinue env ext ct i s with
      | (s1, e1, .fatal msg) => (s1, e1, .fatal msg)
      | (s1, e1, .val false) => (s1, e1, .ok)
      | (s1, e1, .val true) =>
        match runNetsRow env nets s1 with
        | (s2, e2, .ok) =>
          let (s3, e3, r3) := machine env ext F (.leafM nets ct (i + 1)) s2
          (s3, e1 ++ e2 ++ e3, r3)
        | (s2, e2, r) => (s2, e1 ++ e2, r)) := rfl

/-! ## Continuation-test evaluation -/

theorem evalShouldContinue_count (env : Env) (ext : Nat → Bool) (i n : Nat)
    (s : Workspace) (hext : ext i = true) :
    evalShouldContinue env ext (ContTest.count n) i s
      = (s, [], CRes.val (decide (i < n))) := by
  simp [evalShouldContinue, hext, evalNetCont]

theorem evalShouldContinue_count_true (env : Env) (ext : Nat → Bool) (i n : Nat)
    (s : Workspace) (hext : ext i = true) (hi : i < n) :
    evalShouldContinue env ext (ContTest.count n) i s = (s, [], CRes.val true) := by
  rw [evalShouldContinue_count env ext i n s hext]
  simp [hi]

theorem evalShouldContinue_count_false (env : Env) (ext : Nat → Bool) (i n : Nat)
    (s : Workspace) (hext : ext i = true) (hi : ¬ i < n) :
    evalShouldContinue env ext (ContTest.count n) i s = (s, [], CRes.val false) := by
  rw [evalShouldContinue_count env ext i n s hext]
  simp [hi]

/-! ## Registry map lemmas -/

theorem mapLookup_erase_self (m : NetMap) (n : String) :
    mapLookup (mapErase m n) n = none := by
  induction m with
  | nil => rfl
  | cons p rest ih =>
    by_cases h : p.1 = n
    · simpa [mapErase, h] using ih
    · simpa [mapErase, mapLookup, h] using ih

theorem RegOkB_erase (v : NetInst → Bool) (m : NetMap) (n : String)
    (hm : RegOkB v m = true) : RegOkB v (mapErase m n) = true := by
  rw [RegOkB, List.all_eq_true]
  rw [RegOkB, List.all_eq_true] at hm
  intro p hp
  exact hm p (List.mem_of_mem_filter hp)

/-! ## Resolution lemmas -/

theorem collectNetworks_missing (m : NetMap) (ns : List String) (n : String)
    (hn : n ∈ ns) (hmiss : mapLookup m n = none) :
    collectNetworks m ns = none := by
  induction ns with
  | nil => cases hn
  | cons a rest ih =>
    rcases List.mem_cons.mp hn with h | h
    · subst h; simp [collectNetworks, hmiss]
    · rw [collectNetworks]
      cases h1 : mapLookup m a with
      | none => rfl
      | some v => rw [ih h]

theorem collectNetworks_map (m : NetMap) (f : String → NetInst)
    (ns : List String)
    (hres : ∀ n ∈ ns, mapLookup m n = some (some (f n))) :
    collectNetworks m ns = some (ns.map fun n => (n, some (f n))) := by
  induction ns with
  | nil => rfl
  | cons a rest ih =>
    rw [collectNetworks, hres a (by simp),
        ih (fun n hn => hres n (by simp [hn]))]
    rfl

theorem pair_map_fst (f : String → NetInst) (ns : List String) :
    (ns.map fun n => (n, some (f n))).map Prod.fst = ns := by
  induction ns with
  | nil => rfl
  | cons a rest ih => simp [ih]

theorem pair_map_nonNull (f : String → NetInst) (ns : List String) :
    ∀ p ∈ ns.map fun n => (n, some (f n)), p.2.isSome = true := by
  intro p hp
  rcases List.mem_map.mp hp with ⟨n, _, rfl⟩
  rfl

theorem pair_map_getD (f : String → NetInst) (ns : List String) :
    ∀ k, k < ns.length →
      ((ns.map fun n => (n, some (f n))).getD k dfltNet).1 = ns.getD k "" := by
  induction ns with
  | nil => intro k hk; cases hk
  | cons a rest ih =>
    intro k hk
    cases k with
    | zero => rfl
    | succ k =>
      simp only [List.map_cons, List.getD_cons_succ]
      exact ih k (by simpa using Nat.lt_of_succ_lt_succ hk)

/-! ## Leaf row lemmas -/

theorem runNetsRow_ok (env : Env) (nets : List (String × Option NetInst)) :
    ∀ s : Workspace,
      (∀ p ∈ nets, p.2.isSome = true) →
      (∀ k, k < nets.length →
        env.runNet ((nets.getD k dfltNet).1) (s.tick + k) = true) →
      runNetsRow env nets s =
        ({ s with tick := s.tick + nets.length },
         runRowTrace (nets.map Prod.fst) s.tick, Res.ok) := by
  induction nets with
  | nil => intro s _ _; simp [runNetsRow, runRowTrace]
  | cons p rest ih =>
    intro s hnn hok
    obtain ⟨n, inst⟩ := p
    obtain ⟨v, rfl⟩ : ∃ v, inst = some v := by
      have := hnn (n, inst) (by simp)
      cases inst with
      | none => simp at this
      | some v => exact ⟨v, rfl⟩
    have h0 : env.runNet n s.tick = true := by
      simpa [dfltNet] using hok 0 (by simp)
    have ih' := ih { s with tick := s.tick + 1 }
      (fun q hq => hnn q (by simp [hq]))
      (fun k hk => by
        have := hok (k + 1) (by simpa using Nat.succ_lt_succ hk)
        simpa [Nat.add_assoc, Nat.add_comm 1 k] using this)
    rw [runNetsRow, h0]
    simp only [if_true, ih', runRowTrace, List.map_cons]
    refine Prod.ext ?_ (Prod.ext ?_ rfl)
    · simp [Workspace.mk.injEq]; omega
    · simp

theorem runNetsRow_fail (env : Env) (nets : List (String × Option NetInst)) :
    ∀ (s : Workspace) (j0 : Nat),
      (∀ p ∈ nets, p.2.isSome = true) →
      j0 < nets.length →
      (∀ k, k < j0 →
        env.runNet ((nets.getD k dfltNet).1) (s.tick + k) = true) →
      env.runNet ((nets.getD j0 dfltNet).1) (s.tick + j0) = false →
      runNetsRow env nets s =
        ({ s with tick := s.tick + j0 + 1 },
         runRowTrace ((nets.map Prod.fst).take j0) s.tick
           ++ [Event.netRun ((nets.getD j0 dfltNet).1) (s.tick + j0) false],
         Res.fail) := by
  induction nets with
  | nil => intro s j0 _ hj; cases hj
  | cons p rest ih =>
    intro s j0 hnn hj hpre hfail
    obtain ⟨n, inst⟩ := p
    obtain ⟨v, rfl⟩ : ∃ v, inst = some v := by
      have := hnn (n, inst) (by simp)
      cases inst with
      | none => simp at this
      | some v => exact ⟨v, rfl⟩
    cases j0 with
    | zero =>
      have h0 : env.runNet n s.tick = false := by
        simpa [dfltNet] using hfail
      rw [runNetsRow, h0]
      simp [runRowTrace, dfltNet]
    | succ j =>
      have h0 : env.runNet n s.tick = true := by
        simpa [dfltNet] using hpre 0 (Nat.succ_pos j)
      have ih' := ih { s with tick := s.tick + 1 } j
        (fun q hq => hnn q (by simp [hq]))
        (by simpa using Nat.lt_of_succ_lt_succ hj)
        (fun k hk => by
          have := hpre (k + 1) (by simpa using Nat.succ_lt_succ hk)
          simpa [Nat.add_assoc, Nat.add_comm 1 k] using this)
        (by
          have := hfail
          simp only [List.getD_cons_succ] at this
          simpa [Nat.add_assoc, Nat.add_comm 1 j] using this)
      rw [runNetsRow, h0]
      simp only [if_true, ih', runRowTrace, List.map_cons, List.take_succ_cons]
      refine Prod.ext ?_ (Prod.ext ?_ rfl)
      · simp [Workspace.mk.injEq]; omega
      · simp [Nat.add_assoc, Nat.add_comm 1 j]

/-! ## Leaf loop lemmas (fixed iteration count) -/

theorem leafM_count_ok (env : Env) (ext : Nat → Bool) (N : Nat)
    (nets : List (String × Option NetInst))
    (hext : ∀ j, ext j = true)
    (hnn : ∀ p ∈ nets, p.2.isSome = true) :
    ∀ (r fuel i : Nat) (s : Workspace), i + r = N → r + 1 ≤ fuel →
      (∀ q, q < r → ∀ k, k < nets.length →
        env.runNet ((nets.getD k dfltNet).1)
          (s.tick + q * nets.length + k) = true) →
      machine env ext fuel (Mode.leafM nets (ContTest.count N) i) s =
        ({ s with tick := s.tick + r * nets.length },
         leafIters r (nets.map Prod.fst) s.tick, Res.ok) := by
  intro r
  induction r with
  | zero =>
    intro fuel i s hiN hfuel _
    obtain ⟨F, rfl⟩ : ∃ F, fuel = F + 1 := ⟨fuel - 1, by omega⟩
    rw [machine_succ_leafM,
        evalShouldContinue_count_false env ext i N s (hext i) (by omega)]
    simp [leafIters]
  | succ r ih =>
    intro fuel i s hiN hfuel hruns
    obtain ⟨F, rfl⟩ : ∃ F, fuel = F + 1 := ⟨fuel - 1, by omega⟩
    rw [machine_succ_leafM,
        evalShouldContinue_count_true env ext i N s (hext i) (by omega)]
    dsimp only
    have hrow := runNetsRow_ok env nets s hnn (fun k hk => by
      simpa using hruns 0 (Nat.succ_pos r) k hk)
    rw [hrow]
    dsimp only
    have ihh := ih F (i + 1) { s with tick := s.tick + nets.length }
      (by omega) (by omega)
      (fun q hq k hk => by
        have := hruns (q + 1) (by omega) k hk
        have harith : s.tick + (q + 1) * nets.length + k
            = s.tick + nets.length + (q * nets.length + k) := by ring
        rw [harith] at this
        simpa [Nat.add_assoc] using this)
    simp only [ihh]
    refine Prod.ext ?_ (Prod.ext ?_ rfl)
    · simp [Workspace.mk.injEq]; ring
    · simp [leafIters, List.length_map]

theorem leafM_count_fail (env : Env) (ext : Nat → Bool) (N : Nat)
    (nets : List (String × Option NetInst))
    (hext : ∀ j, ext j = true)
    (hnn : ∀ p ∈ nets, p.2.isSome = true) :
    ∀ (i0 fuel i : Nat) (s : Workspace) (j0 : Nat),
      i + i0 < N → i0 + 1 ≤ fuel → j0 < nets.length →
      (∀ q, q < i0 → ∀ k, k < nets.length →
        env.runNet ((nets.getD k dfltNet).1)
          (s.tick + q * nets.length + k) = true) →
      (∀ k, k < j0 →
        env.runNet ((nets.getD k dfltNet).1)
          (s.tick + i0 * nets.length + k) = true) →
      env.runNet ((nets.getD j0 dfltNet).1)
        (s.tick + i0 * nets.length + j0) = false →
      machine env ext fuel (Mode.leafM nets (ContTest.count N) i) s =
        ({ s with tick := s.tick + i0 * nets.length + j0 + 1 },
         leafIters i0 (nets.map Prod.fst) s.tick
           ++ (runRowTrace ((nets.map Prod.fst).take j0)
                 (s.tick + i0 * nets.length)
               ++ [Event.netRun ((nets.getD j0 dfltNet).1)
                     (s.tick + i0 * nets.length + j0) false]),
         Res.fail) := by
  intro i0
  induction i0 with
  | zero =>
    intro fuel i s j0 hiN hfuel hj0 _ hrow hfail
    obtain ⟨F, rfl⟩ : ∃ F, fuel = F + 1 := ⟨fuel - 1, by omega⟩
    rw [machine_succ_leafM,
        evalShouldContinue_count_true env ext i N s (hext i) (by omega)]
    dsimp only
    have hfl := runNetsRow_fail env nets s j0 hnn hj0
      (fun k hk => by simpa using hrow k hk)
      (by simpa using hfail)
    rw [hfl]
    simp [leafIters]
  | succ i0 ih =>
    intro fuel i s j0 hiN hfuel hj0 hrows hrow hfail
    obtain ⟨F, rfl⟩ : ∃ F, fuel = F + 1 := ⟨fuel - 1, by omega⟩
    rw [machine_succ_leafM,
        evalShouldContinue_count_true env ext i N s (hext i) (by omega)]
    dsimp only
    have hrow0 := runNetsRow_ok env nets s hnn (fun k hk => by
      simpa using hrows 0 (Nat.succ_pos i0) k hk)
    rw [hrow0]
    dsimp only
    have harith : ∀ a b : Nat, s.tick + (a + 1) * nets.length + b
        = s.tick + nets.length + (a * nets.length + b) := by
      intro a b; ring
    have ihh := ih F (i + 1) { s with tick := s.tick + nets.length } j0
      (by omega) (by omega) hj0
      (fun q hq k hk => by
        have := hrows (q + 1) (by omega) k hk
        rw [harith q k] at this
        simpa [Nat.add_assoc] using this)
      (fun k hk => by
        have := hrow k hk
        rw [harith i0 k] at this
        simpa [Nat.add_assoc] using this)
      (by
        have := hfail
        rw [harith i0 j0] at this
        simpa [Nat.add_assoc] using this)
    simp only [ihh]
    refine Prod.ext ?_ (Prod.ext ?_ rfl)
    · simp [Workspace.mk.injEq]; ring
    · simp [leafIters, List.length_map, Nat.add_assoc]
      have h1 : s.tick + (nets.length + i0 * nets.length)
          = s.tick + (i0 + 1) * nets.length := by ring
      have h2 : s.tick + (nets.length + (i0 * nets.length + j0))
          = s.tick + ((i0 + 1) * nets.length + j0) := by ring
      rw [h1, h2]

/-! ## Sequential worker lemmas -/

theorem workM_append (env : Env) (ext : Nat → Bool) :
    ∀ (as bs : List ExecutionStep) (f : Nat) (s sm : Workspace)
      (δa : List Event),
      machine env ext f (Mode.workM as) s = (sm, δa, Res.ok) →
      machine env ext f (Mode.workM (as ++ bs)) s =
        ((machine env ext (f - as.length) (Mode.workM bs) sm).1,
         δa ++ (machine env ext (f - as.length) (Mode.workM bs) sm).2.1,
         (machine env ext (f - as.length) (Mode.workM bs) sm).2.2) := by
  intro as
  induction as with
  | nil =>
    intro bs f s sm δa h
    cases f with
    | zero => rw [machine_zero] at h; simp at h
    | succ F =>
      rw [machine_succ_workM] at h
      dsimp only at h
      obtain ⟨rfl, rfl, -⟩ : s = sm ∧ [] = δa ∧ True := by
        simpa using h
      simp

  | cons a t ih =>
    intro bs f s sm δa h
    cases f with
    | zero => rw [machine_zero] at h; simp at h
    | succ F =>
      rw [machine_succ_workM] at h
      dsimp only at h
      rw [List.cons_append, machine_succ_workM]
      dsimp only
      rcases hA : machine env ext F (Mode.stepM a) s with ⟨s1, e1, r1⟩
      cases r1 with
      | ok =>
        rw [hA] at h
        dsimp only at h
        rcases hT : machine env ext F (Mode.workM t) s1 with ⟨s2, e2, r2⟩
        rw [hT] at h
        dsimp only at h
        obtain ⟨rfl, rfl, rfl⟩ : s2 = sm ∧ e1 ++ e2 = δa ∧ r2 = Res.ok := by
          simpa using h
        have ihh := ih bs F s1 _ e2 hT
        dsimp only
        rw [ihh]
        simp [Nat.succ_sub_succ, List.append_assoc]
      | fail => rw [hA] at h; dsimp only at h; simp at h
      | fatal msg => rw [hA] at h; dsimp only at h; simp at h
      | fuelOut => rw [hA] at h; dsimp only at h; simp at h

theorem workM_cons_fail (env : Env) (ext : Nat → Bool) (g : Nat)
    (b : ExecutionStep) (rest : List ExecutionStep) (s sb : Workspace)
    (δb : List Event)
    (hb : machine env ext g (Mode.stepM b) s = (sb, δb, Res.fail)) :
    machine env ext (g + 1) (Mode.workM (b :: rest)) s = (sb, δb, Res.fail) := by
  rw [machine_succ_workM]
  dsimp only
  rw [hb]

/-! ## Entry lemma for leaf steps -/

theorem ExecuteStepRecursive_leaf (env : Env) (ext : Nat → Bool) (F : Nat)
    (step : ExecutionStep) (s : Workspace) (ct : ContTest)
    (nets : List (String × Option NetInst))
    (hsub : step.substep = [])
    (hrep : step.report_net = none)
    (hct : getContinuationTest s step = .ok ct)
    (hcol : collectNetworks s.netMap step.network = some nets) :
    ExecuteStepRecursive env ext (F + 1) step s =
      machine env ext F (Mode.leafM nets ct 0) s := by
  rw [ExecuteStepRecursive, machine_succ_stepM, if_neg (by simp [hsub])]
  have hrs : reporterSetup step s = .ok (s, []) := by
    simp [reporterSetup, hrep]
  rw [hrs]
  dsimp only
  rw [hct]
  dsimp only
  rw [if_neg (by simp [hsub]), hcol]
  dsimp only
  rcases hm : machine env ext F (Mode.leafM nets ct 0) s with ⟨s2, e2, r⟩
  simp

/-! ## Registry erase and insert interaction -/

theorem mapErase_idem (m : NetMap) (n : String) :
    mapErase (mapErase m n) n = mapErase m n := by
  simp [mapErase, List.filter_filter]

theorem mapErase_insert (m : NetMap) (n : String) (v : Option NetInst) :
    mapErase (mapInsert m n v) n = mapErase m n := by
  simp [mapInsert, mapErase, List.filter_filter, List.filter]

theorem RegOkB_insert (v : NetInst → Bool) (m : NetMap) (n : String)
    (inst : NetInst) (hm : RegOkB v m = true) (hv : v inst = true) :
    RegOkB v (mapInsert m n (some inst)) = true := by
  have he := RegOkB_erase v m n hm
  rw [RegOkB, List.all_eq_true] at he
  rw [RegOkB, List.all_eq_true]
  intro p hp
  have hp' : p = (n, some inst) ∨ p ∈ mapErase m n := by
    simpa [mapInsert, List.mem_cons] using hp
  rcases hp' with h | h
  · subst h; exact hv
  · exact he p h

/-! ## Claims -/

/-- Claim C2: for a criteria-network-driven step, each evaluation of the
continuation predicate first runs the criteria network (one `netRun`
event, advancing the tick) and then reads the designated output blob at
the advanced tick; when the blob holds exactly one boolean scalar the
predicate returns its truthiness.  Concretely, a criteria network whose
output reads true, true, false over three successive runs yields
exactly 2 completed iterations of the body network, and the third
iteration runs no leaf network. -/
theorem claim_C2 (env : Env) (cn out : String) (i : Nat) (s : Workspace)
    (t : TensorVal)
    (hblob : env.blobAt out (s.tick + 1) = some t)
    (hsz : t.size = 1) (hb : t.isBool = true) :
    evalNetCont env (ContTest.criteria cn out) i s
      = ({ s with tick := s.tick + 1 },
         [Event.netRun cn s.tick (env.runNet cn s.tick)], CRes.val t.firstBool)
    ∧ ExecuteStepRecursive envCrit extAlways 9 stepCrit wsCrit
      = (⟨5, regCrit⟩,
         [Event.netRun "crit" 0 true, Event.netRun "body" 1 true,
          Event.netRun "crit" 2 true, Event.netRun "body" 3 true,
          Event.netRun "crit" 4 true], Res.ok) := by
  constructor
  · simp [evalNetCont, hblob, hsz, hb]
  · decide

/-- Witness for claim C2 at the concrete criteria scenario. -/
theorem claim_C2_witness :
    envCrit.blobAt "out" (wsCrit.tick + 1) = some ⟨1, true, true⟩
    ∧ evalNetCont envCrit (ContTest.criteria "crit" "out") 0 wsCrit
      = ({ wsCrit with tick := wsCrit.tick + 1 },
         [Event.netRun "crit" wsCrit.tick (envCrit.runNet "crit" wsCrit.tick)],
         CRes.val true) :=
  ⟨by decide,
   (claim_C2 envCrit "crit" "out" 0 wsCrit ⟨1, true, true⟩ (by decide) rfl rfl).1⟩

/-- Claim C3: a step declaring both substeps and networks (non-empty
both) fails validation: it returns the local failure `Res.fail` (not a
fatal abort) with an empty trace, so no network or substep runs and no
reporter is started, and the state is unchanged. -/
theorem claim_C3 (env : Env) (ext : Nat → Bool) (fuel : Nat)
    (step : ExecutionStep) (s : Workspace)
    (hs : step.substep ≠ []) (hn : step.network ≠ []) (hfuel : 0 < fuel) :
    ExecuteStepRecursive env ext fuel step s = (s, [], Res.fail) := by
  obtain ⟨F, rfl⟩ : ∃ F, fuel = F + 1 := ⟨fuel - 1, by omega⟩
  rw [ExecuteStepRecursive, machine_succ_stepM,
      if_pos (by simp [List.length_eq_zero, hs, hn])]

/-- Witness for claim C3 at a concrete step declaring both. -/
theorem claim_C3_witness :
    stepBoth.substep ≠ [] ∧ stepBoth.network ≠ []
    ∧ ExecuteStepRecursive envAllOk extAlways 5 stepBoth ws0 = (ws0, [], Res.fail) :=
  ⟨by simp [stepBoth], by simp [stepBoth],
   claim_C3 envAllOk extAlways 5 stepBoth ws0 (by simp [stepBoth])
     (by simp [stepBoth]) (by decide)⟩

/-- Claim C5: for a leaf step, network names are resolved before the
iteration loop starts; if any referenced name is absent from the
registry the step returns failure with an empty trace — zero network
runs (the criteria network of the continuation test included) and an
unchanged state. -/
theorem claim_C5 (env : Env) (ext : Nat → Bool) (fuel : Nat)
    (step : ExecutionStep) (s : Workspace) (ct : ContTest) (m : String)
    (hsub : step.substep = [])
    (hrep : step.report_net = none)
    (hct : getContinuationTest s step = .ok ct)
    (hm : m ∈ step.network)
    (hmiss : mapLookup s.netMap m = none)
    (hfuel : 0 < fuel) :
    ExecuteStepRecursive env ext fuel step s = (s, [], Res.fail) := by
  obtain ⟨F, rfl⟩ : ∃ F, fuel = F + 1 := ⟨fuel - 1, by omega⟩
  rw [ExecuteStepRecursive, machine_succ_stepM, if_neg (by simp [hsub])]
  have hrs : reporterSetup step s = .ok (s, []) := by
    simp [reporterSetup, hrep]
  rw [hrs]
  dsimp only
  rw [hct]
  dsimp only
  rw [if_neg (by simp [hsub]),
      collectNetworks_missing s.netMap step.network m hm hmiss]

/-- Witness for claim C5 at a leaf step referencing an absent
network. -/
theorem claim_C5_witness :
    mapLookup wsEmpty.netMap "ghost" = none
    ∧ ExecuteStepRecursive envAllOk extAlways 3 stepGhost wsEmpty
      = (wsEmpty, [], Res.fail) :=
  ⟨rfl,
   claim_C5 envAllOk extAlways 3 stepGhost wsEmpty (ContTest.count 1) "ghost"
     rfl rfl rfl (by decide) rfl (by decide)⟩

/-- Counterexample to claim C6 as stated: on a step declaring both a
fixed iteration count and a criteria network, execution does not return
the failure value to its caller; it hits the CHECK
"Must not specify num_iter if criteria_network is set", a process-level
assertion failure, modelled as the distinct outcome `Res.fatal`. -/
theorem claim_C6_cex :
    (ExecuteStepRecursive envAllOk extAlways 5 stepBothIter ws0).2.2
      = Res.fatal "Must not specify num_iter if criteria_network is set"
    ∧ (ExecuteStepRecursive envAllOk extAlways 5 stepBothIter ws0).2.2
      ≠ Res.fail := by
  constructor
  · decide
  · decide

/-- Claim C6 (amended): for a step declaring both a fixed iteration
count and a criteria network (passing shape validation, no report net),
execution aborts with the fatal CHECK failure before running any
network: the outcome is a process-level assertion abort, not a failure
returned to the caller. -/
theorem claim_C6 (env : Env) (ext : Nat → Bool) (fuel : Nat)
    (step : ExecutionStep) (s : Workspace)
    (hfuel : 0 < fuel)
    (hc : step.criteria_network.isSome = true)
    (hn : step.num_iter.isSome = true)
    (hshape : step.substep = [] ∨ step.network = [])
    (hrep : step.report_net = none) :
    ExecuteStepRecursive env ext fuel step s
      = (s, [], Res.fatal "Must not specify num_iter if criteria_network is set") := by
  obtain ⟨F, rfl⟩ : ∃ F, fuel = F + 1 := ⟨fuel - 1, by omega⟩
  rw [ExecuteStepRecursive, machine_succ_stepM,
      if_neg (by rcases hshape with h | h <;> simp [h])]
  have hrs : reporterSetup step s = .ok (s, []) := by
    simp [reporterSetup, hrep]
  rw [hrs]
  dsimp only
  have hct : getContinuationTest s step
      = .error "Must not specify num_iter if criteria_network is set" := by
    simp [getContinuationTest, hc, hn]
  rw [hct]

/-- Witness for the amended claim C6 at a concrete step declaring
both. -/
theorem claim_C6_witness :
    stepBothIter.criteria_network.isSome = true
    ∧ stepBothIter.num_iter.isSome = true
    ∧ ExecuteStepRecursive envAllOk extAlways 5 stepBothIter ws0
      = (ws0, [], Res.fatal "Must not specify num_iter if criteria_network is set") :=
  ⟨rfl, rfl,
   claim_C6 envAllOk extAlways 5 stepBothIter ws0 (by decide) rfl rfl
     (Or.inl rfl) rfl⟩

/-- Claim C7, evaluated at the failing input: when the network
constructor yields no instance, `RunNetOnce` reaches `net->Verify()` on
a null pointer — a crash (`Res.fatal`), not the returned failure the
claim asserts; the registry argument is returned untouched in every
branch, as shown also on a succeeding input. -/
theorem claim_C7 :
    RunNetOnce renvNull regAB ndX
      = (regAB, Res.fatal "Verify called on a null network instance")
    ∧ (RunNetOnce renvNull regAB ndX).2 ≠ Res.fail
    ∧ RunNetOnce renvOk regAB ndX = (regAB, Res.ok) := by
  refine ⟨rfl, by decide, rfl⟩

/-- Claim C9, evaluated at the failing input: on a step whose report
net is absent from the registry, execution logs and then starts the
reporter anyway — on a default-inserted null registry entry.  The trace
contains `reporterStart "r" false` (a reporter on a null handle) and the
registry afterwards maps "r" to a null entry. -/
theorem claim_C9 :
    ExecuteStepRecursive envAllOk extAlways 5 stepReport ws0
      = (⟨1, ("r", none) :: regAB⟩,
         [Event.reporterStart "r" false, Event.netRun "a" 0 true], Res.ok)
    ∧ mapLookup (ExecuteStepRecursive envAllOk extAlways 5 stepReport ws0).1.netMap "r"
      = some none := by
  constructor
  · decide
  · decide

/-- Claim C10: the combined continuation predicate short-circuits — a
false external predicate yields false without evaluating the net test,
so the criteria network is not run: no events, no tick advance, no
store effect; lifted to the leaf and composite iteration loops, a
denied external continuation at iteration `i` ends the loop with
success, an empty trace and an unchanged state, for any continuation
test including a criteria network. -/
theorem claim_C10 (env : Env) (ext : Nat → Bool) (ct : ContTest)
    (i fuel : Nat) (s : Workspace)
    (nets : List (String × Option NetInst))
    (children : List ExecutionStep)
    (hext : ext i = false) (hfuel : 0 < fuel) :
    evalShouldContinue env ext ct i s = (s, [], CRes.val false)
    ∧ machine env ext fuel (Mode.leafM nets ct i) s = (s, [], Res.ok)
    ∧ machine env ext fuel (Mode.loopM children ct i) s = (s, [], Res.ok) := by
  have h0 : evalShouldContinue env ext ct i s = (s, [], CRes.val false) := by
    simp [evalShouldContinue, hext]
  obtain ⟨F, rfl⟩ : ∃ F, fuel = F + 1 := ⟨fuel - 1, by omega⟩
  refine ⟨h0, ?_, ?_⟩
  · rw [machine_succ_leafM, h0]
  · rw [machine_succ_loopM, h0]

/-- Claim C1: a leaf step (non-empty network list, no substeps) with a
fixed iteration count `N` (the default 1 when no count is set and no
criteria network is declared) runs each referenced network exactly `N`
times, in declared order within each iteration (consecutive ticks in
declared order, `N` rows), and returns success when every run succeeds;
when the first failing run is the one at iteration `i0`, position `j0`,
the step returns failure immediately: the trace is exactly `i0` full
rows, the successful part of row `i0` and the single failing run, with
no run after it, neither the remaining networks of that row nor any
later iteration. -/
theorem claim_C1 (step : ExecutionStep) (s : Workspace) (f : String → NetInst)
    (N fuel : Nat) (ext : Nat → Bool) (envA envB : Env) (i0 j0 : Nat)
    (hsub : step.substep = [])
    (hne : step.network ≠ [])
    (hcrit : step.criteria_network = none)
    (hrep : step.report_net = none)
    (hN : step.num_iter.getD 1 = N)
    (hext : ∀ j, ext j = true)
    (hres : ∀ n ∈ step.network, mapLookup s.netMap n = some (some (f n)))
    (hfuel : N + 2 ≤ fuel)
    (hA : ∀ n t, envA.runNet n t = true)
    (hi0 : i0 < N) (hj0 : j0 < step.network.length)
    (hrowsB : ∀ q, q < i0 → ∀ k, k < step.network.length →
      envB.runNet (step.network.getD k "")
        (s.tick + q * step.network.length + k) = true)
    (hrowB : ∀ k, k < j0 →
      envB.runNet (step.network.getD k "")
        (s.tick + i0 * step.network.length + k) = true)
    (hfailB : envB.runNet (step.network.getD j0 "")
        (s.tick + i0 * step.network.length + j0) = false) :
    ExecuteStepRecursive envA ext fuel step s
      = ({ s with tick := s.tick + N * step.network.length },
         leafIters N step.network s.tick, Res.ok)
    ∧ ExecuteStepRecursive envB ext fuel step s
      = ({ s with tick := s.tick + i0 * step.network.length + j0 + 1 },
         leafIters i0 step.network s.tick
           ++ (runRowTrace (step.network.take j0)
                 (s.tick + i0 * step.network.length)
               ++ [Event.netRun (step.network.getD j0 "")
                     (s.tick + i0 * step.network.length + j0) false]),
         Res.fail) := by
  obtain ⟨F, rfl⟩ : ∃ F, fuel = F + 1 := ⟨fuel - 1, by omega⟩
  have hct : getContinuationTest s step = .ok (.count N) := by
    simp [getContinuationTest, hcrit, hN]
  have hcol := collectNetworks_map s.netMap f step.network hres
  have hnn := pair_map_nonNull f step.network
  have hlen : (step.network.map fun n => (n, some (f n))).length
      = step.network.length := by simp
  have hfst := pair_map_fst f step.network
  have hgetD := pair_map_getD f step.network
  constructor
  · rw [ExecuteStepRecursive_leaf envA ext F step s _ _ hsub hrep hct hcol]
    have hok := leafM_count_ok envA ext N _ hext hnn N F 0 s (by omega)
      (by omega) (fun q hq k hk => hA _ _)
    rw [hok, hlen, hfst]
  · rw [ExecuteStepRecursive_leaf envB ext F step s _ _ hsub hrep hct hcol]
    have hfl := leafM_count_fail envB ext N _ hext hnn i0 F 0 s j0
      (by omega) (by omega) (by rw [hlen]; exact hj0)
      (fun q hq k hk => by
        rw [hlen] at hk
        rw [hgetD k hk, hlen]
        exact hrowsB q hq k hk)
      (fun k hk => by
        rw [hgetD k (by omega), hlen]
        exact hrowB k hk)
      (by rw [hgetD j0 hj0, hlen]; exact hfailB)
    rw [hfl, hlen, hfst, hgetD j0 hj0]

/-- Witness for claim C1: two networks, two iterations; success under
an all-succeeding environment, failure at iteration 1, position 1 under
an environment failing at tick 3. -/
theorem claim_C1_witness :
    (∀ n ∈ step1.network, mapLookup ws0.netMap n = some (some netI))
    ∧ ExecuteStepRecursive envAllOk extAlways 10 step1 ws0
      = ({ ws0 with tick := ws0.tick + 2 * step1.network.length },
         leafIters 2 step1.network ws0.tick, Res.ok)
    ∧ ExecuteStepRecursive envFail3 extAlways 10 step1 ws0
      = ({ ws0 with tick := ws0.tick + 1 * step1.network.length + 1 + 1 },
         leafIters 1 step1.network ws0.tick
           ++ (runRowTrace (step1.network.take 1)
                 (ws0.tick + 1 * step1.network.length)
               ++ [Event.netRun (step1.network.getD 1 "")
                     (ws0.tick + 1 * step1.network.length + 1) false]),
         Res.fail) := by
  have h := claim_C1 step1 ws0 (fun _ => netI) 2 10 extAlways envAllOk envFail3 1 1
    rfl (by decide) rfl rfl rfl (fun _ => rfl) (by decide) (by decide)
    (fun _ _ => rfl) (by decide) (by decide) (by decide) (by decide) (by decide)
  exact ⟨by decide, h.1, h.2⟩

/-- Claim C4: a sequential composite step (concurrent flag false, or a
single substep) executes its substeps strictly in declared order, each
completing before the next starts; when the substeps split as
`as ++ b :: rest` with every step of `as` succeeding and `b` failing,
the worker output is exactly the output of `as` followed by the output
of `b` — `rest` is never started — and the whole composite step returns
failure with that same trace: no further outer iteration is
attempted. -/
theorem claim_C4 (env : Env) (ext : Nat → Bool) (f : Nat)
    (step : ExecutionStep) (s sm sb : Workspace)
    (as rest : List ExecutionStep) (b : ExecutionStep)
    (δa δb : List Event)
    (hcs : step.substep = as ++ b :: rest)
    (hnet : step.network = [])
    (hrep : step.report_net = none)
    (hcrit : step.criteria_network = none)
    (hN : 0 < step.num_iter.getD 1)
    (hext : ∀ i, ext i = true)
    (hconc : step.concurrent_substeps = false ∨ step.substep.length = 1)
    (hpre : machine env ext f (Mode.workM as) s = (sm, δa, Res.ok))
    (hb : machine env ext (f - as.length - 1) (Mode.stepM b) sm
      = (sb, δb, Res.fail))
    (hfb : as.length + 1 ≤ f) :
    machine env ext f (Mode.workM (as ++ b :: rest)) s
      = (sb, δa ++ δb, Res.fail)
    ∧ ExecuteStepRecursive env ext (f + 2) step s
      = (sb, δa ++ δb, Res.fail) := by
  have h1 : machine env ext f (Mode.workM (as ++ b :: rest)) s
      = (sb, δa ++ δb, Res.fail) := by
    rw [workM_append env ext as (b :: rest) f s sm δa hpre]
    obtain ⟨g, hg⟩ : ∃ g, f - as.length = g + 1 :=
      ⟨f - as.length - 1, by omega⟩
    have hg' : g = f - as.length - 1 := by omega
    rw [hg, workM_cons_fail env ext g b rest sm sb δb (by rw [hg']; exact hb)]
  refine ⟨h1, ?_⟩
  have hff : f + 2 = (f + 1) + 1 := rfl
  rw [ExecuteStepRecursive, hff, machine_succ_stepM,
      if_neg (by simp [hnet])]
  have hrs : reporterSetup step s = .ok (s, []) := by
    simp [reporterSetup, hrep]
  rw [hrs]
  dsimp only
  have hct : getContinuationTest s step
      = .ok (.count (step.num_iter.getD 1)) := by
    simp [getContinuationTest, hcrit]
  rw [hct]
  dsimp only
  have hlen0 : step.substep.length ≠ 0 := by rw [hcs]; simp
  rw [if_pos hlen0, hcs, machine_succ_loopM,
      evalShouldContinue_count_true env ext 0 (step.num_iter.getD 1) s
        (hext 0) hN]
  dsimp only
  rw [h1]
  simp

/-- Witness for claim C4: three sequential leaf substeps; the first
succeeds, the second fails, the third is never started. -/
theorem claim_C4_witness :
    machine envBfail extAlways 10 (Mode.workM [stepA]) wsABC
      = (⟨1, regABC⟩, [Event.netRun "a" 0 true], Res.ok)
    ∧ machine envBfail extAlways 8 (Mode.stepM stepBfail) ⟨1, regABC⟩
      = (⟨2, regABC⟩, [Event.netRun "bfail" 1 false], Res.fail)
    ∧ machine envBfail extAlways 10 (Mode.workM [stepA, stepBfail, stepC]) wsABC
      = (⟨2, regABC⟩,
         [Event.netRun "a" 0 true, Event.netRun "bfail" 1 false], Res.fail)
    ∧ ExecuteStepRecursive envBfail extAlways 12 stepSeq wsABC
      = (⟨2, regABC⟩,
         [Event.netRun "a" 0 true, Event.netRun "bfail" 1 false], Res.fail) := by
  have h := claim_C4 envBfail extAlways 10 stepSeq wsABC ⟨1, regABC⟩ ⟨2, regABC⟩
    [stepA] [stepC] stepBfail [Event.netRun "a" 0 true]
    [Event.netRun "bfail" 1 false]
    rfl rfl rfl rfl (by decide) (fun _ => rfl) (Or.inl rfl)
    (by decide) (by decide) (by decide)
  exact ⟨by decide, by decide, h.1, h.2⟩

/-- Claim C8 (amended): the registry invariant — every registered name
maps to a single non-null verified instance — is an invariant of
`CreateNet`: it is preserved from any registry satisfying it; on a name
collision the old entry is erased before the new instance is
constructed (the first two events); and on construction or verification
failure the entry is removed (the name resolves to nothing afterwards)
and the null handle is returned.  The invariant is, however, not
preserved by every public workspace operation; see the
counterexample. -/
theorem claim_C8 (env : RunEnv) (m : NetMap) (nd : NetDef) (n : String)
    (hm : RegOkB env.verifyNet m = true) :
    RegOkB env.verifyNet (CreateNet env m nd).1 = true
    ∧ (nd.name = some n → mapLookup m n ≠ none →
        (CreateNet env m nd).2.1.take 2
          = [RegEvent.eraseEv n, RegEvent.constructEv n (env.construct nd).isSome])
    ∧ (nd.name = some n → env.construct nd = none →
        (CreateNet env m nd).2.2 = CreateOut.nullOut
        ∧ mapLookup (CreateNet env m nd).1 n = none)
    ∧ (nd.name = some n → ∀ inst, env.construct nd = some inst →
        env.verifyNet inst = false →
        (CreateNet env m nd).2.2 = CreateOut.nullOut
        ∧ mapLookup (CreateNet env m nd).1 n = none) := by
  refine ⟨?_, ?_, ?_, ?_⟩
  · rcases hname : nd.name with _ | n0
    · simpa [CreateNet, hname] using hm
    · rcases hbuilt : env.construct nd with _ | inst
      · simp only [CreateNet, hname, hbuilt, mapErase_insert]
        split
        · exact RegOkB_erase _ _ _ (RegOkB_erase _ _ _ hm)
        · exact RegOkB_erase _ _ _ hm
      · rcases hv : env.verifyNet inst with _ | _
        · simp only [CreateNet, hname, hbuilt, hv, Bool.false_eq_true,
            if_false, mapErase_insert]
          split
          · exact RegOkB_erase _ _ _ (RegOkB_erase _ _ _ hm)
          · exact RegOkB_erase _ _ _ hm
        · simp only [CreateNet, hname, hbuilt, hv, if_true]
          split
          · exact RegOkB_insert _ _ _ _ (RegOkB_erase _ _ _ hm) hv
          · exact RegOkB_insert _ _ _ _ hm hv
  · intro hname hl
    rcases hbuilt : env.construct nd with _ | inst
    · simp [CreateNet, hname, hbuilt, hl]
    · rcases hv : env.verifyNet inst with _ | _ <;>
        simp [CreateNet, hname, hbuilt, hl, hv]
  · intro hname hb
    simp [CreateNet, hname, hb, mapErase_insert, mapLookup_erase_self]
  · intro hname inst hbuilt hv
    simp [CreateNet, hname, hbuilt, hv, mapErase_insert, mapLookup_erase_self]

/-- Witness for the amended claim C8: a colliding name whose
construction fails — invariant preserved, erase precedes construct, the
entry is gone afterwards and null is returned. -/
theorem claim_C8_witness :
    RegOkB renvNull.verifyNet mapX = true
    ∧ RegOkB renvNull.verifyNet (CreateNet renvNull mapX ndX).1 = true
    ∧ (CreateNet renvNull mapX ndX).2.1.take 2
        = [RegEvent.eraseEv "x", RegEvent.constructEv "x" (renvNull.construct ndX).isSome]
    ∧ (CreateNet renvNull mapX ndX).2.2 = CreateOut.nullOut
    ∧ mapLookup (CreateNet renvNull mapX ndX).1 "x" = none := by
  have h := claim_C8 renvNull mapX ndX "x" (by decide)
  exact ⟨by decide, h.1, h.2.1 rfl (by decide),
    (h.2.2.1 rfl rfl).1, (h.2.2.1 rfl rfl).2⟩

/-- Counterexample to claim C8 as stated: the registry invariant is not
preserved by every public workspace operation — executing a step whose
report net is absent from the registry default-inserts a null entry
into the registry, breaking the invariant. -/
theorem claim_C8_cex :
    RegOkB (fun _ => true) ws0.netMap = true
    ∧ RegOkB (fun _ => true)
        (ExecuteStepRecursive envAllOk extAlways 5 stepReport ws0).1.netMap
      = false := by
  constructor
  · decide
  · decide

/-- Witness for claim C10 at a criteria-driven leaf loop with a denied
external continuation. -/
theorem claim_C10_witness :
    extNever 0 = false
    ∧ machine envCrit extNever 5
        (Mode.leafM [("body", some netI)] (ContTest.criteria "crit" "out") 0) wsCrit
      = (wsCrit, [], Res.ok) :=
  ⟨rfl,
   (claim_C10 envCrit extNever (ContTest.criteria "crit" "out") 0 5 wsCrit
     [("body", some netI)] [] rfl (by decide)).2.1⟩

end Caffe2
